import Mathlib

/-!
Verification development for the invoice-extraction client.

The definitions below are a shallow embedding of the JavaScript source:
  - App.js (state, addFiles, resetApp)
  - InvoiceProcessor.js (processInvoices)
  - InvoiceList.js (filteredInvoices, pagination, exportToExcel, exportToCSV)
  - ChatInterface.js (handleSend)
Network round trips are modelled by an outcome oracle indexed by item
position; observable side effects (status-map updates, session publication,
completion callbacks, outgoing requests) are recorded as explicit event
traces.  JavaScript strings become String, numbers become Int/Nat, missing
or null fields become Option, and JS truthiness of strings is modelled
explicitly (null/undefined and the empty string are falsy).
-/

/-- JS truthiness of a string-or-null value: null/undefined and "" are falsy. -/
def jsTruthyStr : Option String → Bool
  | none => false
  | some s => !(s == "")

/-- JS a || b where a is a string-or-null value: b when a is falsy. -/
def jsOrStr (a : Option String) (b : String) : String :=
  match a with
  | none => b
  | some s => if s == "" then b else s

/-- Char-list version of JS String.startsWith on the tail positions. -/
def leadMatch : List Char → List Char → Bool
  | _, [] => true
  | [], _ :: _ => false
  | a :: s, b :: p => a == b && leadMatch s p

/-- Char-list version of JS String.includes. -/
def charsContain : List Char → List Char → Bool
  | [], p => p.isEmpty
  | a :: s, p => leadMatch (a :: s) p || charsContain s p

/-- JS s.includes(pat). -/
def jsIncludes (s pat : String) : Bool :=
  charsContain s.toList pat.toList

/-- JS s.toLowerCase(), written over the character list so it computes by
kernel reduction. -/
def jsToLower (s : String) : String :=
  String.mk (s.data.map Char.toLower)

/-- JS s.trim(): strip leading and trailing whitespace, written over the
character list so it computes by kernel reduction. -/
def jsTrim (s : String) : String :=
  String.mk (((s.data.dropWhile Char.isWhitespace).reverse.dropWhile
    Char.isWhitespace).reverse)

/-- One line item inside structured invoice data. -/
structure LineItem where
  description : Option String := none
  quantity : Option Int := none
  unit_price : Option Int := none
  total : Option Int := none
deriving DecidableEq, Repr

/-- Structured data extracted from an invoice; every field may be missing,
an all-absent record models the empty JS object. -/
structure InvoiceData where
  vendor_name : Option String := none
  invoice_number : Option String := none
  date : Option String := none
  total_amount : Option Int := none
  line_items : List LineItem := []
deriving DecidableEq, Repr

/-- The empty JS object as structured data. -/
def emptyData : InvoiceData := {}

/-- A file record built by addFiles in App.js: id, name and (base64) content. -/
structure FileRec where
  id : String
  name : String
  content : String
deriving DecidableEq, Repr

/-- The normalized per-item result pushed by processInvoices. -/
structure ExtractionResult where
  id : String
  document_name : String
  status : String
  data : InvoiceData
  error : Option String := none
  rawText : Option String := none
  fileBase64 : Option String := none
deriving DecidableEq, Repr

/-- Success-shaped response body of POST /process-document. -/
structure SuccessResp where
  session_id : Option String := none
  structured_data : Option InvoiceData := none
  document_name : Option String := none
  raw_text : Option String := none
  file_data : Option String := none
deriving DecidableEq, Repr

/-- How one item's round trip settles: a 2xx body with success:true, a 2xx
body with success:false plus optional error text, or a thrown exception
(transport failure or base64 conversion failure) with optional message. -/
inductive CallOutcome where
  | success (resp : SuccessResp)
  | failure (err : Option String)
  | exn (msg : Option String)
deriving DecidableEq, Repr

/-- Lifecycle status values stored in the processingStatus map. -/
inductive Status where
  | pending
  | processing
  | completed
  | error
deriving DecidableEq, Repr

/-- A single setProcessingStatus update: either the one-shot functional
update that writes every listed id at once, or a single-id write. -/
inductive StatusEvent where
  | initAll (ids : List String) (st : Status)
  | setOne (id : String) (st : Status)
deriving DecidableEq, Repr

/-- Observable events emitted while processInvoices runs. -/
inductive BatchEvent where
  | statusEv (e : StatusEvent)
  | sessionCreated (sid : String)
  | processed (results : List ExtractionResult)
  | processingComplete
deriving DecidableEq, Repr

/-- Outcome of processing one file inside the loop body of processInvoices. -/
structure ItemStep where
  result : ExtractionResult
  sessionId : Option String
  events : List BatchEvent
deriving Repr

/-- Loop body of processInvoices for one file, given the session id known so
far and the round trip's outcome.  Mirrors InvoiceProcessor.js lines 21-103:
the success branch adopts the first truthy session id and notifies
onSessionCreated, builds the success result and marks the id completed; the
failure and exception branches build an error result and mark the id error. -/
def processItem (file : FileRec) (sessionId : Option String) : CallOutcome → ItemStep
  | .success resp =>
    let adopt := !(jsTruthyStr sessionId) && jsTruthyStr resp.session_id
    { result :=
        { id := file.id
          document_name := jsOrStr resp.document_name file.name
          status := "success"
          data := resp.structured_data.getD emptyData
          error := none
          rawText := some (jsOrStr resp.raw_text "")
          fileBase64 := some (jsOrStr resp.file_data file.content) }
      sessionId := if adopt then resp.session_id else sessionId
      events :=
        (if adopt then [BatchEvent.sessionCreated (resp.session_id.getD "")] else [])
          ++ [BatchEvent.statusEv (StatusEvent.setOne file.id Status.completed)] }
  | .failure err =>
    { result :=
        { id := file.id
          document_name := file.name
          status := "error"
          data := emptyData
          error := some (jsOrStr err "Processing failed") }
      sessionId := sessionId
      events := [BatchEvent.statusEv (StatusEvent.setOne file.id Status.error)] }
  | .exn msg =>
    { result :=
        { id := file.id
          document_name := file.name
          status := "error"
          data := emptyData
          error := some (jsOrStr msg "Processing failed") }
      sessionId := sessionId
      events := [BatchEvent.statusEv (StatusEvent.setOne file.id Status.error)] }

/-- Accumulated output of the for loop of processInvoices. -/
structure LoopOut where
  results : List ExtractionResult
  sessionId : Option String
  events : List BatchEvent
deriving Repr

/-- The for loop of processInvoices: files in order, outcome oracle indexed
by position, session id threaded through. -/
def runLoop (outcome : Nat → CallOutcome) : List FileRec → Nat → Option String → LoopOut
  | [], _, sid => { results := [], sessionId := sid, events := [] }
  | f :: rest, i, sid =>
    let step := processItem f sid (outcome i)
    let tail := runLoop outcome rest (i + 1) step.sessionId
    { results := step.result :: tail.results
      sessionId := tail.sessionId
      events := step.events ++ tail.events }

/-- Full output of one processInvoices run: the results handed to
onProcessed and the ordered trace of observable events. -/
structure BatchOut where
  results : List ExtractionResult
  events : List BatchEvent
deriving Repr

/-- processInvoices (InvoiceProcessor.js lines 8-112): one atomic status-map
update writing every id, the per-file loop, then onProcessed with the full
result list and onProcessingComplete. -/
def processInvoices (files : List FileRec) (outcome : Nat → CallOutcome) : BatchOut :=
  let loop := runLoop outcome files 0 none
  { results := loop.results
    events :=
      BatchEvent.statusEv (StatusEvent.initAll (files.map (fun f => f.id)) Status.processing)
        :: (loop.events ++ [BatchEvent.processed loop.results, BatchEvent.processingComplete]) }

/-- The processingStatus map: ids to statuses, absent ids give none. -/
def StatusMap : Type := String → Option Status

/-- The everywhere-absent status map (React initial state). -/
def emptyStatusMap : StatusMap := fun _ => none

/-- Apply one setProcessingStatus update to the map. -/
def applyStatusEvent (m : StatusMap) : StatusEvent → StatusMap
  | .initAll ids st => fun i => if ids.contains i then some st else m i
  | .setOne j st => fun i => if i = j then some st else m i

/-- Apply one batch event to the status map; non-status events leave it. -/
def applyBatchEvent (m : StatusMap) : BatchEvent → StatusMap
  | .statusEv e => applyStatusEvent m e
  | _ => m

/-- Fold a trace of batch events over the status map. -/
def applyBatchEvents (m : StatusMap) : List BatchEvent → StatusMap
  | [] => m
  | e :: es => applyBatchEvents (applyBatchEvent m e) es

/-- Is this event the onProcessingComplete callback firing. -/
def isComplete : BatchEvent → Bool
  | .processingComplete => true
  | _ => false

/-- Is this event an onSessionCreated publication. -/
def isSessionPub : BatchEvent → Bool
  | .sessionCreated _ => true
  | _ => false

/-- Number of onProcessingComplete firings in a trace. -/
def countComplete (evs : List BatchEvent) : Nat := evs.countP isComplete

/-- Number of onSessionCreated publications in a trace. -/
def countSessionPub (evs : List BatchEvent) : Nat := evs.countP isSessionPub

/-- Spec-side definition, following the claim's words: the session id carried
by the first successful response, scanning the batch in order, that carries a
(truthy) session id; none when no such response exists. -/
def specFirstSessionId (outcome : Nat → CallOutcome) : List FileRec → Nat → Option String
  | [], _ => none
  | _ :: rest, i =>
    match outcome i with
    | .success resp =>
        if jsTruthyStr resp.session_id then resp.session_id
        else specFirstSessionId outcome rest (i + 1)
    | _ => specFirstSessionId outcome rest (i + 1)

/-- Does an invoice count as a success row (InvoiceList.js status check). -/
def isSuccess (inv : ExtractionResult) : Bool := inv.status == "success"

/-- Search predicate of filteredInvoices (InvoiceList.js lines 134-136):
case-insensitive containment in document name, vendor name or invoice
number, with absent fields read as the empty string. -/
def matchesSearch (inv : ExtractionResult) (searchTerm : String) : Bool :=
  jsIncludes (jsToLower inv.document_name) (jsToLower searchTerm) ||
  jsIncludes (jsToLower (jsOrStr inv.data.vendor_name "")) (jsToLower searchTerm) ||
  jsIncludes (jsToLower (jsOrStr inv.data.invoice_number "")) (jsToLower searchTerm)

/-- Status predicate of filteredInvoices (InvoiceList.js line 138). -/
def matchesStatus (inv : ExtractionResult) (statusFilter : String) : Bool :=
  statusFilter == "all" || inv.status == statusFilter

/-- filteredInvoices (InvoiceList.js lines 133-141). -/
def filteredInvoices (invoices : List ExtractionResult) (searchTerm statusFilter : String) :
    List ExtractionResult :=
  invoices.filter (fun inv => matchesSearch inv searchTerm && matchesStatus inv statusFilter)

/-- One row of the GL-ready export (the object literal of exportToExcel and
exportToCSV in InvoiceList.js). -/
structure GLRow where
  document : String
  vendor : String
  invoiceNumber : String
  date : String
  account : String
  description : String
  debit : Int
  credit : Int
  reference : String
  entity : String
deriving DecidableEq, Repr

/-- Projection of one successful invoice into a GL row (shared by both
export functions; absent fields fall back via JS ||). -/
def glRow (inv : ExtractionResult) : GLRow :=
  { document := inv.document_name
    vendor := jsOrStr inv.data.vendor_name ""
    invoiceNumber := jsOrStr inv.data.invoice_number ""
    date := jsOrStr inv.data.date ""
    account := "Accounts Payable"
    description := jsOrStr (inv.data.line_items.head?.bind (fun li => li.description)) ""
    debit := inv.data.total_amount.getD 0
    credit := 0
    reference := jsOrStr inv.data.invoice_number ""
    entity := "Cal Poly Pomona Foundation" }

/-- exportToExcel (InvoiceList.js lines 157-193), modelled as the list of
rows written to the worksheet; column widths and the file write are
presentation and carry no further row data. -/
def exportToExcel (invoices : List ExtractionResult) : List GLRow :=
  (invoices.filter isSuccess).map glRow

/-- The header row of the CSV export: Object.keys of the row literal, in
insertion order. -/
def glKeys : List String :=
  ["Document", "Vendor", "Invoice Number", "Date", "Account",
   "Description", "Debit", "Credit", "Reference", "Entity"]

/-- Wrap one CSV cell in double quotes (the template literal of line 213). -/
def quoteCell (s : String) : String := "\"" ++ s ++ "\""

/-- Object.values of the row literal, stringified, in insertion order. -/
def rowValues (r : GLRow) : List String :=
  [r.document, r.vendor, r.invoiceNumber, r.date, r.account,
   r.description, toString r.debit, toString r.credit, r.reference, r.entity]

/-- One data line of the CSV export. -/
def csvLine (r : GLRow) : String :=
  String.intercalate "," ((rowValues r).map quoteCell)

/-- exportToCSV (InvoiceList.js lines 195-223), as the list of emitted CSV
lines.  Object.keys(glReadyData[0]) throws a TypeError when glReadyData is
empty, modelled by the error case. -/
def exportToCSV (invoices : List ExtractionResult) : Except String (List String) :=
  let glReadyData := (invoices.filter isSuccess).map glRow
  match glReadyData with
  | [] => Except.error "TypeError: Cannot convert undefined or null to object"
  | r :: rest =>
      Except.ok (String.intercalate "," glKeys :: (r :: rest).map csvLine)

/-- Page size of InvoiceList (itemsPerPage state, fixed at 20). -/
def itemsPerPage : Nat := 20

/-- Render-relevant state of the InvoiceList component. -/
structure ListState where
  invoices : List ExtractionResult
  searchTerm : String
  statusFilter : String
  currentPage : Nat
deriving DecidableEq, Repr

/-- The filtered invoice list derived from the component state. -/
def filteredOf (s : ListState) : List ExtractionResult :=
  filteredInvoices s.invoices s.searchTerm s.statusFilter

/-- totalPages (line 144): Math.ceil of filtered length over page size. -/
def totalPages (s : ListState) : Nat :=
  ((filteredOf s).length + (itemsPerPage - 1)) / itemsPerPage

/-- startIndex (line 145). -/
def startIndex (s : ListState) : Nat := (s.currentPage - 1) * itemsPerPage

/-- currentInvoices (lines 145-147): filtered.slice(startIndex, endIndex). -/
def currentInvoices (s : ListState) : List ExtractionResult :=
  ((filteredOf s).drop (startIndex s)).take itemsPerPage

/-- User events that update InvoiceList state. -/
inductive ListEvent where
  | prevPage
  | nextPage
  | setSearch (t : String)
  | setStatus (f : String)
deriving DecidableEq, Repr

/-- State transition of InvoiceList.  The page buttons render only when
totalPages exceeds 1 and are disabled at the ends (lines 352, 362, 374), so
their handlers (max with 1, min with totalPages, lines 361 and 373) fire
only from enabled states; search and status inputs update freely. -/
def stepList (s : ListState) : ListEvent → ListState
  | .prevPage =>
      if 1 < totalPages s ∧ s.currentPage ≠ 1 then
        { s with currentPage := max (s.currentPage - 1) 1 }
      else s
  | .nextPage =>
      if 1 < totalPages s ∧ s.currentPage ≠ totalPages s then
        { s with currentPage := min (s.currentPage + 1) (totalPages s) }
      else s
  | .setSearch t => { s with searchTerm := t }
  | .setStatus f => { s with statusFilter := f }

/-- Initial InvoiceList state for a given invoice list (useState defaults:
page 1, empty search, status filter all). -/
def initialListState (invoices : List ExtractionResult) : ListState :=
  { invoices := invoices, searchTerm := "", statusFilter := "all", currentPage := 1 }

/-- States of InvoiceList reachable from some initial state by user events. -/
inductive ReachableList : ListState → Prop where
  | init (invoices : List ExtractionResult) : ReachableList (initialListState invoices)
  | step (s : ListState) (e : ListEvent) : ReachableList s → ReachableList (stepList s e)

/-- One chat transcript entry (the message objects of ChatInterface.js). -/
structure ChatMessage where
  id : Nat
  type : String
  content : String
  timestamp : Nat
deriving DecidableEq, Repr

/-- Render-relevant state of ChatInterface. -/
structure ChatState where
  messages : List ChatMessage
  inputValue : String
  isLoading : Bool
deriving DecidableEq, Repr

/-- How one chatAPI.sendMessage round trip settles. -/
inductive ChatOutcome where
  | success (resp : String)
  | failure (err : Option String)
  | exn
deriving DecidableEq, Repr

/-- An observable outgoing request of the chat client. -/
inductive ChatEffect where
  | request (sessionId : String) (message : String)
deriving DecidableEq, Repr

/-- The fallback assistant message of the catch branch. -/
def chatFallback : String :=
  "Sorry, I encountered an error while processing your message. Please try again."

/-- handleSend (ChatInterface.js lines 20-61): guard on empty trimmed input,
in-flight request or falsy session id; otherwise append the user message,
issue one request, and append the assistant reply (the response text on
success, the fallback on a failed response or thrown error). -/
def handleSend (sessionId : Option String) (outcome : ChatOutcome) (now : Nat)
    (s : ChatState) : ChatState × List ChatEffect :=
  if (jsTrim s.inputValue == "") || s.isLoading || !(jsTruthyStr sessionId) then
    (s, [])
  else
    let userMessage := jsTrim s.inputValue
    let withUser := s.messages ++
      [{ id := now, type := "user", content := userMessage, timestamp := now }]
    let reply : String :=
      match outcome with
      | .success resp => resp
      | .failure _ => chatFallback
      | .exn => chatFallback
    ({ messages := withUser ++
         [{ id := now + 1, type := "assistant", content := reply, timestamp := now }]
       inputValue := ""
       isLoading := false },
     [ChatEffect.request (sessionId.getD "") userMessage])

/-- Render-relevant state of the App component (App.js lines 9-13). -/
structure AppState where
  files : List FileRec
  processedInvoices : List ExtractionResult
  isProcessing : Bool
  currentView : String
  chatSessionId : Option String
deriving DecidableEq, Repr

/-- resetApp (App.js lines 40-44): clears files and processed invoices and
returns to the upload view; chatSessionId is not touched. -/
def resetApp (s : AppState) : AppState :=
  { s with files := [], processedInvoices := [], currentView := "upload" }

/-- Shape of every event emitted inside the loop of processInvoices: a
per-id terminal status write or a session publication. -/
def loopEvShape (e : BatchEvent) : Prop :=
  (∃ fid st, e = BatchEvent.statusEv (StatusEvent.setOne fid st) ∧
      (st = Status.completed ∨ st = Status.error)) ∨
  (∃ sid, e = BatchEvent.sessionCreated sid)

/-- The status-map value is a terminal one. -/
def terminalAt (o : Option Status) : Prop :=
  o = some Status.completed ∨ o = some Status.error

theorem processItem_events_shape (file : FileRec) (sid : Option String) (oc : CallOutcome) :
    ∀ e ∈ (processItem file sid oc).events, loopEvShape e := by
  intro e he
  cases oc with
  | success resp =>
      simp only [processItem] at he
      rcases List.mem_append.mp he with h | h
      · split at h
        · exact Or.inr ⟨_, List.mem_singleton.mp h⟩
        · cases h
      · exact Or.inl ⟨file.id, Status.completed, List.mem_singleton.mp h, Or.inl rfl⟩
  | failure err =>
      simp only [processItem] at he
      exact Or.inl ⟨file.id, Status.error, List.mem_singleton.mp he, Or.inr rfl⟩
  | exn msg =>
      simp only [processItem] at he
      exact Or.inl ⟨file.id, Status.error, List.mem_singleton.mp he, Or.inr rfl⟩

theorem runLoop_events_shape (outcome : Nat → CallOutcome) :
    ∀ (files : List FileRec) (i : Nat) (sid : Option String),
      ∀ e ∈ (runLoop outcome files i sid).events, loopEvShape e := by
  intro files
  induction files with
  | nil => intro i sid e he; simp [runLoop] at he
  | cons f rest ih =>
      intro i sid e he
      simp only [runLoop] at he
      rcases List.mem_append.mp he with h | h
      · exact processItem_events_shape f sid (outcome i) e h
      · exact ih (i + 1) _ e h

theorem applyBatchEvents_append (m : StatusMap) (a b : List BatchEvent) :
    applyBatchEvents m (a ++ b) = applyBatchEvents (applyBatchEvents m a) b := by
  induction a generalizing m with
  | nil => rfl
  | cons e es ih => simp [applyBatchEvents, ih]

theorem applyBatchEvents_terminal_mono (evs : List BatchEvent)
    (hsh : ∀ e ∈ evs, loopEvShape e) (m : StatusMap) (i : String)
    (h : terminalAt (m i)) : terminalAt (applyBatchEvents m evs i) := by
  induction evs generalizing m with
  | nil => exact h
  | cons e es ih =>
      apply ih (fun x hx => hsh x (List.mem_cons_of_mem _ hx))
      rcases hsh e (List.mem_cons_self _ _) with ⟨fid, st, rfl, hst⟩ | ⟨s, rfl⟩
      · simp only [applyBatchEvent, applyStatusEvent]
        by_cases hid : i = fid
        · simp only [hid, if_pos rfl]
          rcases hst with rfl | rfl
          · exact Or.inl rfl
          · exact Or.inr rfl
        · simpa [hid] using h
      · exact h

theorem processItem_sets_terminal (file : FileRec) (sid : Option String) (oc : CallOutcome)
    (m : StatusMap) :
    terminalAt (applyBatchEvents m (processItem file sid oc).events file.id) := by
  cases oc with
  | success resp =>
      simp only [processItem]
      split
      · simp only [applyBatchEvents, applyBatchEvent, applyStatusEvent, List.cons_append,
          List.nil_append]
        exact Or.inl (by simp)
      · simp only [applyBatchEvents, applyBatchEvent, applyStatusEvent, List.nil_append]
        exact Or.inl (by simp)
  | failure err =>
      simp only [processItem, applyBatchEvents, applyBatchEvent, applyStatusEvent]
      exact Or.inr (by simp)
  | exn msg =>
      simp only [processItem, applyBatchEvents, applyBatchEvent, applyStatusEvent]
      exact Or.inr (by simp)

theorem runLoop_sets_terminal (outcome : Nat → CallOutcome) :
    ∀ (files : List FileRec) (i : Nat) (sid : Option String) (m : StatusMap)
      (f : FileRec), f ∈ files →
      terminalAt (applyBatchEvents m (runLoop outcome files i sid).events f.id) := by
  intro files
  induction files with
  | nil => intro i sid m f hf; cases hf
  | cons g rest ih =>
      intro i sid m f hf
      simp only [runLoop]
      rw [applyBatchEvents_append]
      rcases List.mem_cons.mp hf with rfl | hf
      · exact applyBatchEvents_terminal_mono _
          (runLoop_events_shape outcome rest (i + 1) _) _ _
          (processItem_sets_terminal f sid (outcome i) m)
      · exact ih (i + 1) _ _ f hf

theorem runLoop_results_ids (outcome : Nat → CallOutcome) :
    ∀ (files : List FileRec) (i : Nat) (sid : Option String),
      (runLoop outcome files i sid).results.map (fun r => r.id) =
        files.map (fun f => f.id) := by
  intro files
  induction files with
  | nil => intro i sid; rfl
  | cons f rest ih =>
      intro i sid
      simp only [runLoop, List.map_cons]
      rw [ih]
      cases outcome i <;> simp [processItem]

/-- C1: for every batch and every combination of per-item outcomes, the
result list of processInvoices has the same length as the batch and its i-th
element carries the i-th input file's id (order preservation). -/
theorem processInvoices_length_order (files : List FileRec) (outcome : Nat → CallOutcome) :
    (processInvoices files outcome).results.length = files.length ∧
    (processInvoices files outcome).results.map (fun r => r.id) =
      files.map (fun f => f.id) := by
  have h := runLoop_results_ids outcome files 0 none
  constructor
  · have hl := congrArg List.length h
    simpa [processInvoices] using hl
  · simpa [processInvoices] using h

/-- C4: after processInvoices completes, the status map obtained by applying
the emitted trace assigns every id of the batch a terminal status, completed
or error, whatever map was in place before the run. -/
theorem processInvoices_terminal_status (files : List FileRec) (outcome : Nat → CallOutcome)
    (m : StatusMap) (f : FileRec) (hf : f ∈ files) :
    applyBatchEvents m (processInvoices files outcome).events f.id = some Status.completed ∨
    applyBatchEvents m (processInvoices files outcome).events f.id = some Status.error := by
  have hterm : terminalAt (applyBatchEvents m (processInvoices files outcome).events f.id) := by
    simp only [processInvoices, applyBatchEvents]
    rw [applyBatchEvents_append]
    simp only [applyBatchEvents, applyBatchEvent]
    exact runLoop_sets_terminal outcome files 0 none _ f hf
  exact hterm

theorem runLoop_no_complete (outcome : Nat → CallOutcome) (files : List FileRec)
    (i : Nat) (sid : Option String) :
    countComplete (runLoop outcome files i sid).events = 0 := by
  rw [countComplete, List.countP_eq_zero]
  intro e he
  rcases runLoop_events_shape outcome files i sid e he with ⟨fid, st, rfl, _⟩ | ⟨s, rfl⟩ <;>
    simp [isComplete]

/-- C5: a single item's failure never stops the batch: whatever the per-item
outcomes, every file yields a result (the result list is as long as the
batch) and onProcessingComplete fires exactly once per run, also when every
item errored. -/
theorem batch_completion_fires_once (files : List FileRec) (outcome : Nat → CallOutcome) :
    countComplete (processInvoices files outcome).events = 1 ∧
    (processInvoices files outcome).results.length = files.length := by
  constructor
  · have h := runLoop_no_complete outcome files 0 none
    simp only [processInvoices, countComplete, List.countP_cons, List.countP_append]
    simp only [countComplete] at h
    simp [h, isComplete, List.countP_cons]
  · have h := congrArg List.length (runLoop_results_ids outcome files 0 none)
    simpa [processInvoices] using h

/-- A concrete one-element batch. -/
def fileA : FileRec := { id := "f1", name := "a.pdf", content := "QUFB" }

/-- Outcome oracle whose every call succeeds with an all-default body. -/
def ocAllSuccess : Nat → CallOutcome := fun _ => CallOutcome.success {}

/-- C2 counterexample: on invocation the status map is seeded, in its one
atomic step, with the status processing for every id of the batch, not with
pending as claimed; at the concrete batch [fileA], the first emitted event
writes processing, and processing is not pending. -/
theorem statusInit_is_processing_not_pending :
    (processInvoices [fileA] ocAllSuccess).events.head? =
      some (BatchEvent.statusEv (StatusEvent.initAll ["f1"] Status.processing)) ∧
    Status.processing ≠ Status.pending :=
  ⟨rfl, by decide⟩

/-- Every event after the atomic seeding step is a per-id terminal write or
a non-status callback; in particular no second bulk write and no pending or
processing write ever follows. -/
def laterEvOk : BatchEvent → Prop
  | BatchEvent.statusEv (StatusEvent.setOne _ st) => st = Status.completed ∨ st = Status.error
  | BatchEvent.statusEv (StatusEvent.initAll _ _) => False
  | _ => True

/-- C2 amended: the status map is seeded in one atomic step that assigns
processing (not pending) to every id of the batch, and each item thereafter
moves only to completed or error when its own call settles; there is no
per-item pending to processing transition. -/
theorem statusInit_atomic_processing (files : List FileRec) (outcome : Nat → CallOutcome) :
    (processInvoices files outcome).events.head? =
      some (BatchEvent.statusEv
        (StatusEvent.initAll (files.map (fun f => f.id)) Status.processing)) ∧
    ∀ e ∈ (processInvoices files outcome).events.tail, laterEvOk e := by
  constructor
  · rfl
  · intro e he
    simp only [processInvoices, List.tail_cons] at he
    rcases List.mem_append.mp he with h | h
    · rcases runLoop_events_shape outcome files 0 none e h with ⟨fid, st, rfl, hst⟩ | ⟨s, rfl⟩
      · exact hst
      · trivial
    · simp only [List.mem_cons, List.mem_singleton] at h
      rcases h with rfl | rfl | h
      · trivial
      · trivial
      · cases h

theorem statusInit_atomic_processing_witness :
    (processInvoices [fileA] ocAllSuccess).events.head? =
      some (BatchEvent.statusEv (StatusEvent.initAll ["f1"] Status.processing)) ∧
    laterEvOk (BatchEvent.statusEv (StatusEvent.setOne "f1" Status.completed)) :=
  ⟨(statusInit_atomic_processing [fileA] ocAllSuccess).1,
   (statusInit_atomic_processing [fileA] ocAllSuccess).2
     (BatchEvent.statusEv (StatusEvent.setOne "f1" Status.completed)) (by decide)⟩

theorem jsTruthyStr_isSome {o : Option String} (h : jsTruthyStr o = true) :
    o.isSome = true := by
  cases o with
  | none => cases h
  | some s => rfl

theorem runLoop_session_sticky (outcome : Nat → CallOutcome) :
    ∀ (files : List FileRec) (i : Nat) (sid : Option String),
      jsTruthyStr sid = true →
      (runLoop outcome files i sid).sessionId = sid ∧
      countSessionPub (runLoop outcome files i sid).events = 0 := by
  intro files
  induction files with
  | nil => intro i sid _; exact ⟨rfl, rfl⟩
  | cons f rest ih =>
      intro i sid h
      simp only [runLoop]
      cases hoc : outcome i with
      | success resp =>
          have hadopt : (!(jsTruthyStr sid) && jsTruthyStr resp.session_id) = false := by
            simp [h]
          obtain ⟨hsid, hcnt⟩ := ih (i + 1) sid h
          constructor
          · simpa [processItem, hadopt] using hsid
          · simp [processItem, hadopt, countSessionPub, List.countP_append, isSessionPub]
            simpa [countSessionPub, processItem, hadopt] using hcnt
      | failure err =>
          obtain ⟨hsid, hcnt⟩ := ih (i + 1) sid h
          constructor
          · simpa [processItem] using hsid
          · simp [processItem, countSessionPub, List.countP_append, isSessionPub]
            simpa [countSessionPub, processItem] using hcnt
      | exn msg =>
          obtain ⟨hsid, hcnt⟩ := ih (i + 1) sid h
          constructor
          · simpa [processItem] using hsid
          · simp [processItem, countSessionPub, List.countP_append, isSessionPub]
            simpa [countSessionPub, processItem] using hcnt

theorem runLoop_session_fromNone (outcome : Nat → CallOutcome) :
    ∀ (files : List FileRec) (i : Nat),
      (runLoop outcome files i none).sessionId = specFirstSessionId outcome files i ∧
      countSessionPub (runLoop outcome files i none).events =
        (if (specFirstSessionId outcome files i).isSome then 1 else 0) := by
  intro files
  induction files with
  | nil => intro i; exact ⟨rfl, rfl⟩
  | cons f rest ih =>
      intro i
      cases hoc : outcome i with
      | success resp =>
          simp only [runLoop, specFirstSessionId, hoc]
          by_cases ht : jsTruthyStr resp.session_id = true
          · have hadopt :
                (!(jsTruthyStr (none : Option String)) && jsTruthyStr resp.session_id) = true := by
              rw [ht]; decide
            obtain ⟨hsid, hcnt⟩ :=
              runLoop_session_sticky outcome rest (i + 1) resp.session_id ht
            constructor
            · simp only [processItem, hadopt, if_pos, if_true, ht]
              simpa [processItem, hadopt] using hsid
            · simp only [ht, if_true, jsTruthyStr_isSome ht]
              simp [processItem, hadopt, countSessionPub, List.countP_append, isSessionPub]
              simpa [countSessionPub, processItem, hadopt] using hcnt
          · have ht' : jsTruthyStr resp.session_id = false := by
              cases hb : jsTruthyStr resp.session_id
              · rfl
              · exact absurd hb ht
            have hadopt :
                (!(jsTruthyStr (none : Option String)) && jsTruthyStr resp.session_id) = false := by
              rw [ht']; decide
            obtain ⟨hsid, hcnt⟩ := ih (i + 1)
            constructor
            · simp only [ht, if_false]
              simpa [processItem, hadopt] using hsid
            · simp only [ht, if_false]
              simp [processItem, hadopt, countSessionPub, List.countP_append, isSessionPub]
              simpa [countSessionPub, processItem, hadopt] using hcnt
      | failure err =>
          simp only [runLoop, specFirstSessionId, hoc]
          obtain ⟨hsid, hcnt⟩ := ih (i + 1)
          constructor
          · simpa [processItem] using hsid
          · simp [processItem, countSessionPub, List.countP_append, isSessionPub]
            simpa [countSessionPub, processItem] using hcnt
      | exn msg =>
          simp only [runLoop, specFirstSessionId, hoc]
          obtain ⟨hsid, hcnt⟩ := ih (i + 1)
          constructor
          · simpa [processItem] using hsid
          · simp [processItem, countSessionPub, List.countP_append, isSessionPub]
            simpa [countSessionPub, processItem] using hcnt

/-- C3: the session id adopted by processInvoices is the one carried by the
first successful response that carries one, onSessionCreated is published
exactly once when such a response exists and never otherwise, and once a
session id is adopted, processing any further items, whatever their
responses carry, leaves it unchanged and publishes nothing (first wins,
idempotent adoption). -/
theorem session_adoption_first_wins (files : List FileRec) (outcome : Nat → CallOutcome) :
    (runLoop outcome files 0 none).sessionId = specFirstSessionId outcome files 0 ∧
    countSessionPub (processInvoices files outcome).events =
      (if (specFirstSessionId outcome files 0).isSome then 1 else 0) ∧
    (∀ (i : Nat) (s : String), s ≠ "" →
      (runLoop outcome files i (some s)).sessionId = some s ∧
      countSessionPub (runLoop outcome files i (some s)).events = 0) := by
  obtain ⟨hsid, hcnt⟩ := runLoop_session_fromNone outcome files 0
  refine ⟨hsid, ?_, ?_⟩
  · simp only [processInvoices, countSessionPub, List.countP_cons, List.countP_append]
    simp only [countSessionPub] at hcnt
    simp [hcnt, isSessionPub]
  · intro i s hs
    have ht : jsTruthyStr (some s) = true := by simp [jsTruthyStr, hs]
    exact runLoop_session_sticky outcome files i (some s) ht

theorem session_adoption_first_wins_witness :
    (runLoop ocAllSuccess [fileA] 3 (some "sess-123")).sessionId = some "sess-123" ∧
    countSessionPub (runLoop ocAllSuccess [fileA] 3 (some "sess-123")).events = 0 :=
  (session_adoption_first_wins [fileA] ocAllSuccess).2.2 3 "sess-123" (by decide)

/-- A concrete failed result. -/
def errResult : ExtractionResult :=
  { id := "f1", document_name := "a.pdf", status := "error", data := emptyData,
    error := some "bad" }

/-- A concrete successful result with full structured data. -/
def okResult : ExtractionResult :=
  { id := "f2", document_name := "b.pdf", status := "success",
    data := { vendor_name := some "Acme Corporation", invoice_number := some "INV-1",
              date := some "2024-01-01", total_amount := some 100,
              line_items := [{ description := some "Widgets" }] } }

/-- C6 counterexample: the CSV export reads the keys of the first data row,
so on a result set with zero successful results it throws instead of
producing an (empty) export; at the concrete input [errResult] the export
itself errors, contrary to the claim. -/
theorem exportCSV_errors_on_zero_successes :
    exportToCSV [errResult] =
      Except.error "TypeError: Cannot convert undefined or null to object" := rfl

/-- C6 amended: both exports produce exactly one row per success, in input
order restricted to successes, with the fixed columns; failed results are
silently excluded; the Excel export never errors, and the CSV export does
not error whenever at least one successful result exists, but errors when
the result set contains zero successful results. -/
theorem exportLedger_rows_correct (invoices : List ExtractionResult) :
    (exportToExcel invoices).length = invoices.countP isSuccess ∧
    (exportToExcel invoices).map (fun r => r.document) =
      (invoices.filter isSuccess).map (fun inv => inv.document_name) ∧
    (∀ r ∈ exportToExcel invoices, ∃ inv ∈ invoices, isSuccess inv = true ∧ r = glRow inv) ∧
    (∀ r ∈ exportToExcel invoices,
      r.account = "Accounts Payable" ∧ r.credit = 0 ∧
        r.entity = "Cal Poly Pomona Foundation") ∧
    (invoices.filter isSuccess = [] →
      exportToCSV invoices =
        Except.error "TypeError: Cannot convert undefined or null to object") ∧
    (invoices.filter isSuccess ≠ [] →
      exportToCSV invoices =
        Except.ok (String.intercalate "," glKeys :: (exportToExcel invoices).map csvLine)) := by
  refine ⟨?_, ?_, ?_, ?_, ?_, ?_⟩
  · simp [exportToExcel, List.countP_eq_length_filter]
  · simp only [exportToExcel, List.map_map]
    rfl
  · intro r hr
    rcases List.mem_map.mp hr with ⟨inv, hinv, rfl⟩
    exact ⟨inv, (List.mem_filter.mp hinv).1, (List.mem_filter.mp hinv).2, rfl⟩
  · intro r hr
    rcases List.mem_map.mp hr with ⟨inv, _, rfl⟩
    exact ⟨rfl, rfl, rfl⟩
  · intro h
    simp [exportToCSV, h]
  · intro h
    rcases hf : invoices.filter isSuccess with _ | ⟨a, rest⟩
    · exact absurd hf h
    · simp [exportToCSV, exportToExcel, hf]

theorem exportLedger_rows_correct_witness :
    exportToCSV [errResult] =
      Except.error "TypeError: Cannot convert undefined or null to object" ∧
    exportToCSV [okResult] =
      Except.ok (String.intercalate "," glKeys :: (exportToExcel [okResult]).map csvLine) ∧
    (glRow okResult).account = "Accounts Payable" ∧ (glRow okResult).credit = 0 ∧
      (glRow okResult).entity = "Cal Poly Pomona Foundation" :=
  ⟨(exportLedger_rows_correct [errResult]).2.2.2.2.1 (by decide),
   (exportLedger_rows_correct [okResult]).2.2.2.2.2 (by decide),
   (exportLedger_rows_correct [okResult]).2.2.2.1 (glRow okResult) (by decide)⟩

/-- A result for the C7 search scenario. -/
def mkInv (i doc vendor status : String) : ExtractionResult :=
  { id := i, document_name := doc, status := status,
    data := { vendor_name := some vendor } }

/-- The five results of the C7 scenario: two vendors contain Acme Corp, one
of those two is an error result. -/
def scenarioInvoices : List ExtractionResult :=
  [ mkInv "s1" "inv1.pdf" "Acme Corporation" "success"
  , mkInv "s2" "inv2.pdf" "Acme Corp Ltd" "error"
  , mkInv "s3" "inv3.pdf" "Globex" "success"
  , mkInv "s4" "inv4.pdf" "Initech" "success"
  , mkInv "s5" "inv5.pdf" "Umbrella" "error" ]

/-- C7: filteredInvoices is the subsequence of the input whose members match
the search term case-insensitively on document name, vendor name or invoice
number and pass the status filter; on the scenario of five results searched
with acme under the success filter, exactly one item remains. -/
theorem filteredInvoices_contract (invoices : List ExtractionResult)
    (searchTerm statusFilter : String) :
    List.Sublist (filteredInvoices invoices searchTerm statusFilter) invoices ∧
    (∀ inv, inv ∈ filteredInvoices invoices searchTerm statusFilter ↔
      inv ∈ invoices ∧ matchesSearch inv searchTerm = true ∧
        matchesStatus inv statusFilter = true) ∧
    (filteredInvoices scenarioInvoices "acme" "success").length = 1 := by
  refine ⟨?_, ?_, ?_⟩
  · exact List.filter_sublist invoices
  · intro inv
    simp [filteredInvoices, List.mem_filter, and_assoc]
  · decide

/-- A minimal success result with the given document name. -/
def mkDoc (n : String) : ExtractionResult :=
  { id := n, document_name := n, status := "success", data := emptyData }

/-- Twenty-one results: twenty named doc.pdf and one named special.pdf. -/
def invList21 : List ExtractionResult :=
  List.replicate 20 (mkDoc "doc.pdf") ++ [mkDoc "special.pdf"]

/-- The reachable state of the C8 counterexample: start on the 21-result
list, click next (page 2 of 2), then type a search term that matches only
one result. -/
def cexListState : ListState :=
  stepList (stepList (initialListState invList21) ListEvent.nextPage)
    (ListEvent.setSearch "special")

/-- C8 counterexample: the page number is not re-clamped when the filtered
sequence changes, so a reachable state shows a page index outside the
claimed interval and a non-empty filtered sequence displays an empty page. -/
theorem pagination_page_escapes_range :
    ReachableList cexListState ∧
    filteredOf cexListState ≠ [] ∧
    currentInvoices cexListState = [] ∧
    ¬ (1 ≤ cexListState.currentPage ∧ cexListState.currentPage ≤ totalPages cexListState) := by
  refine ⟨?_, by decide, by decide, by decide⟩
  exact ReachableList.step _ _ (ReachableList.step _ _ (ReachableList.init invList21))

theorem currentSlice_ne_nil (l : List ExtractionResult) (p : Nat)
    (hl : l ≠ []) (h1 : 1 ≤ p)
    (h2 : p ≤ (l.length + (itemsPerPage - 1)) / itemsPerPage) :
    (l.drop ((p - 1) * itemsPerPage)).take itemsPerPage ≠ [] := by
  have hlen : 0 < l.length := List.length_pos.mpr hl
  have hmul : p * itemsPerPage ≤
      ((l.length + (itemsPerPage - 1)) / itemsPerPage) * itemsPerPage :=
    Nat.mul_le_mul_right _ h2
  have hdiv : ((l.length + (itemsPerPage - 1)) / itemsPerPage) * itemsPerPage ≤
      l.length + (itemsPerPage - 1) :=
    Nat.div_mul_le_self _ _
  have e : itemsPerPage = 20 := rfl
  rw [e] at hmul hdiv
  have hstart : (p - 1) * 20 < l.length := by omega
  intro hnil
  have hz : ((l.drop ((p - 1) * itemsPerPage)).take itemsPerPage).length = 0 := by
    rw [hnil]; rfl
  rw [List.length_take, List.length_drop, e] at hz
  omega

theorem currentInvoices_ne_nil (t : ListState) (hne : filteredOf t ≠ [])
    (h1 : 1 ≤ t.currentPage) (h2 : t.currentPage ≤ totalPages t) :
    currentInvoices t ≠ [] :=
  currentSlice_ne_nil (filteredOf t) t.currentPage hne h1 h2

/-- C8 amended: the page number starts at 1 and the navigation buttons keep
it inside the interval from 1 to the page count of the current filtered
sequence; within an unchanged filtered sequence a non-empty filter always
displays a non-empty page.  (The interval can only be escaped when the
filtered sequence itself changes, as the counterexample shows.) -/
theorem pagination_clamped_under_navigation (s : ListState) (e : ListEvent)
    (hnav : e = ListEvent.prevPage ∨ e = ListEvent.nextPage)
    (h1 : 1 ≤ s.currentPage) (h2 : s.currentPage ≤ totalPages s) :
    1 ≤ (stepList s e).currentPage ∧
    (stepList s e).currentPage ≤ totalPages (stepList s e) ∧
    (filteredOf s ≠ [] → currentInvoices (stepList s e) ≠ []) := by
  rcases hnav with rfl | rfl
  · by_cases hg : (1 < totalPages s ∧ s.currentPage ≠ 1)
    · simp only [stepList, if_pos hg]
      have hp1 : 1 ≤ max (s.currentPage - 1) 1 := le_max_right _ _
      have hp2 : max (s.currentPage - 1) 1 ≤ totalPages s :=
        max_le (le_trans (Nat.sub_le _ _) h2) (le_of_lt hg.1)
      exact ⟨hp1, hp2, fun hne => currentInvoices_ne_nil _ hne hp1 hp2⟩
    · simp only [stepList, if_neg hg]
      exact ⟨h1, h2, fun hne => currentInvoices_ne_nil _ hne h1 h2⟩
  · by_cases hg : (1 < totalPages s ∧ s.currentPage ≠ totalPages s)
    · simp only [stepList, if_pos hg]
      have hp1 : 1 ≤ min (s.currentPage + 1) (totalPages s) :=
        le_min (by omega) (le_of_lt hg.1)
      have hp2 : min (s.currentPage + 1) (totalPages s) ≤ totalPages s := min_le_right _ _
      exact ⟨hp1, hp2, fun hne => currentInvoices_ne_nil _ hne hp1 hp2⟩
    · simp only [stepList, if_neg hg]
      exact ⟨h1, h2, fun hne => currentInvoices_ne_nil _ hne h1 h2⟩

theorem pagination_clamped_under_navigation_witness :
    1 ≤ (stepList (initialListState [mkDoc "doc.pdf"]) ListEvent.nextPage).currentPage ∧
    (stepList (initialListState [mkDoc "doc.pdf"]) ListEvent.nextPage).currentPage ≤
      totalPages (stepList (initialListState [mkDoc "doc.pdf"]) ListEvent.nextPage) ∧
    currentInvoices (stepList (initialListState [mkDoc "doc.pdf"]) ListEvent.nextPage) ≠ [] := by
  have h := pagination_clamped_under_navigation (initialListState [mkDoc "doc.pdf"])
    ListEvent.nextPage (Or.inr rfl) (by decide) (by decide)
  exact ⟨h.1, h.2.1, h.2.2 (by decide)⟩

/-- C9: handleSend returns before any network call, issuing no request and
leaving the state (in particular the transcript) unchanged, whenever the
trimmed question is empty (empty or whitespace-only input) or the session
id is absent. -/
theorem handleSend_rejects_locally (sessionId : Option String) (outcome : ChatOutcome)
    (now : Nat) (s : ChatState)
    (h : jsTrim s.inputValue = "" ∨ sessionId = none) :
    handleSend sessionId outcome now s = (s, []) := by
  rcases h with h | h
  · simp [handleSend, h]
  · simp [handleSend, h, jsTruthyStr]

/-- A chat state whose input is whitespace-only. -/
def chatStateWS : ChatState := { messages := [], inputValue := "   ", isLoading := false }

theorem handleSend_rejects_locally_witness :
    handleSend (some "sess-123") ChatOutcome.exn 0 chatStateWS = (chatStateWS, []) :=
  handleSend_rejects_locally (some "sess-123") ChatOutcome.exn 0 chatStateWS
    (Or.inl (by decide))

/-- C10: resetApp clears the file list and the processed invoices and
returns to the upload view while leaving chatSessionId exactly as it was:
an active session id from the previous batch stays current after the reset,
so the next batch starts with the stale session still visible to the chat
client. -/
theorem resetApp_keeps_session (s : AppState) :
    (resetApp s).chatSessionId = s.chatSessionId ∧
    (resetApp s).files = [] ∧
    (resetApp s).processedInvoices = [] ∧
    (resetApp s).currentView = "upload" ∧
    (resetApp s).isProcessing = s.isProcessing :=
  ⟨rfl, rfl, rfl, rfl, rfl⟩

theorem processInvoices_terminal_status_witness :
    applyBatchEvents emptyStatusMap (processInvoices [fileA] ocAllSuccess).events "f1" =
      some Status.completed ∨
    applyBatchEvents emptyStatusMap (processInvoices [fileA] ocAllSuccess).events "f1" =
      some Status.error :=
  processInvoices_terminal_status [fileA] ocAllSuccess emptyStatusMap fileA (by decide)
